import Mathlib

/-!
Shallow embedding of the key-ring orchestrator (`KeyRingService`, src/unnamed/part_001)
and of the Starknet chain adapter (`KeyRingStarknetService`,
src/packages/background/src/keyring-starknet/service.ts) of the wallet.

The JavaScript values stored in a vault's `insensitive` record are modelled by the
inductive `IValue` together with JS truthiness.  The external `VaultService`
(secret store) is not part of the sources; its CRUD operations
(`getVault` / `addVault` / `removeVault` / `setAndMergeInsensitiveToVault` /
`checkUserPassword`) are modelled from the spec (§6): an association list of vault
entries, with merge = patch keys override existing keys.  The external strategy
objects (`KeyRing`), the Starknet address derivation and the Starknet hash
library are injected parameters / spec-modelled definitions, each marked below.
-/

set_option autoImplicit false

deriving instance DecidableEq for Except

/-- A JavaScript value stored in a vault's open `insensitive` record:
a string, a number, or an object (such as the ledger app record `{pubKey}`). -/
inductive IValue where
  | str (s : String)
  | num (n : Int)
  | obj (fields : List (String × String))
deriving DecidableEq, Repr

/-- JS truthiness of an `insensitive` value: `""` and `0` are falsy, objects truthy. -/
def IValue.truthy : IValue → Bool
  | .str s => s ≠ ""
  | .num n => n ≠ 0
  | .obj _ => true

/-- JS truthiness of a record access that may be `undefined`. -/
def truthyO : Option IValue → Bool
  | none => false
  | some v => v.truthy

/-- The TS `as number` cast applied to an insensitive value (the stored per-chain
coin-type tags are numbers by construction). -/
def IValue.asNumber : IValue → Int
  | .num n => n
  | _ => 0

/-- A persisted vault entry of kind "keyRing": stable id plus the open
`insensitive` string-keyed record (first binding wins on lookup; the encrypted
`sensitive` blob is opaque to every operation modelled here and is omitted). -/
structure Vault where
  id : String
  insensitive : List (String × IValue)
deriving DecidableEq, Repr

/-- BIP44 coin-type record of a chain (`chainInfo.bip44`, `alternativeBIP44s[i]`). -/
structure BIP44 where
  coinType : Int
deriving DecidableEq, Repr

/-- Chain metadata consumed from the external `ChainsService`:
default coin type, optional alternative coin types, and whether the modular
chain info carries a `starknet` section. -/
structure ChainInfo where
  chainId : String
  bip44 : BIP44
  alternativeBIP44s : Option (List BIP44)
  hasStarknet : Bool
deriving DecidableEq, Repr

/-- BIP44 HD path passed to vault creation (`{account, change, addressIndex}`);
the values are modelled as integers, on which `Number.isInteger` holds. -/
structure BIP44HDPath where
  account : Int
  change : Int
  addressIndex : Int
deriving DecidableEq, Repr

/-- Raw signature triple produced by a key-ring strategy and consumed by the
adapter's `formatEthSignature`: `{r, s, v}` with byte-array `r`/`s` and a
recovery indicator that may be `null`. -/
structure RawSig where
  r : List Nat
  s : List Nat
  v : Option Nat
deriving DecidableEq, Repr

/-- Typed errors thrown by `KeyRingService` (part_001); each constructor is one
`throw new Error(...)` site. -/
inductive KRError where
  | locked
  | chainNotFound
  | unsupportedCoinType
  | vaultNull
  | notMnemonic
  | alreadyFinalized
  | emptyKeyRing
  | invalidPassword
  | notLedger
  | appAlreadyAppended
  | unsupportedKeyRing
  | invalidAccount
  | invalidChange
  | invalidAddressIndex
deriving DecidableEq, Repr

/-- Mutable state owned by the orchestrator together with the vault store:
lock flag, sign-up flag, the store's user password, the key-ring vault entries
in store order, and the persisted `_selectedVaultId`. -/
structure KRState where
  locked : Bool
  signedUp : Bool
  password : String
  vaults : List Vault
  selectedVaultId : Option String
deriving DecidableEq, Repr

/-- Key-ring strategy (one registered variant), injected into the orchestrator:
discriminant tag plus the pure derivation/signing callbacks. -/
structure KeyRing where
  supportedKeyRingType : String
  getPubKey : Vault → Int → ChainInfo → List Nat
  sign : Vault → Int → List Nat → String → ChainInfo → RawSig

/-- Out-of-state collaborators injected into the services: chain metadata,
the registered key-ring strategies, the external Starknet address derivation
(public key, salt, class hash ↦ address bytes) and the external evaluation of a
symbolic digest to its byte string. -/
structure Config where
  chains : List ChainInfo
  keyRings : List KeyRing
  getStarknetAddress : List Nat → List Nat → List Nat → List Nat

/-- `ChainsService.getChainInfoOrThrow` / `getModularChainInfoOrThrow` lookup. -/
def Config.findChain (cfg : Config) (chainId : String) : Option ChainInfo :=
  cfg.chains.find? (fun ci => ci.chainId = chainId)

/-- `VaultService.getVault("keyRing", id)`: Modelled from the spec (§6),
first entry with the requested id. -/
def findVault (vaults : List Vault) (id : String) : Option Vault :=
  vaults.find? (fun v => v.id = id)

/-- Modelled from the spec (§6): `VaultService.setAndMergeInsensitiveToVault` —
the patch is merged into the entry's insensitive record, patch keys overriding
existing keys (lookup takes the first binding). -/
def updVaultF (id : String) (patch : List (String × IValue)) (v : Vault) : Vault :=
  if v.id = id then { v with insensitive := patch ++ v.insensitive } else v

/-- State after merging `patch` into the insensitive record of vault `id`. -/
def updateVaultIns (st : KRState) (id : String) (patch : List (String × IValue)) :
    KRState :=
  { st with vaults := st.vaults.map (updVaultF id patch) }

/-- `Buffer.from(bytes).toString("hex")`: two lowercase hex digits per byte. -/
def bytesToHex (bs : List Nat) : String :=
  String.join (bs.map (fun b =>
    String.mk [Nat.digitChar (b / 16 % 16), Nat.digitChar (b % 16)]))

/-- JS `n.toString(16)`: lowercase hex digits, no padding, `"0"` for zero. -/
def natToHex (n : Nat) : String :=
  String.mk (Nat.toDigits 16 n)

/-- A byte array read as a big-endian unsigned integer. -/
def bytesToNat (bs : List Nat) : Nat :=
  bs.foldl (fun acc b => acc * 256 + b) 0

/-- `Buffer.from(hexString, "hex")`: consecutive pairs of hex digits as bytes. -/
def hexToBytes : List Char → List Nat
  | a :: b :: rest =>
    (((a.toNat - (if a.isDigit then 48 else 87)) % 16) * 16 +
      ((b.toNat - (if b.isDigit then 48 else 87)) % 16)) :: hexToBytes rest
  | _ => []

/-- The per-chain coin-type tag key `keyRing-<identifier>-coinType`.  The
external `ChainIdHelper.parse(chainId).identifier` is modelled as the chain id
itself; every claim below depends only on the tag being a function of the chain
id of this shape. -/
def coinTypeTag (chainId : String) : String :=
  "keyRing-" ++ chainId ++ "-coinType"

namespace KeyRingService

/-- `get selectedVaultId` (part_001:118-130): the persisted selection if truthy
and still existing, else the first key-ring vault, else the EmptyKeyRing error. -/
def selectedVaultIdGet (st : KRState) : Except KRError String :=
  let fallback : Except KRError String :=
    match st.vaults with
    | [] => .error .emptyKeyRing
    | v :: _ => .ok v.id
  match st.selectedVaultId with
  | some id =>
    if id ≠ "" ∧ (findVault st.vaults id).isSome then .ok id else fallback
  | none => fallback

/-- `finalizeMnemonicKeyCoinType` (part_001:132-172), with the state threaded:
an error leaves the returned state equal to the input state. -/
def finalizeMnemonicKeyCoinType (cfg : Config) (st : KRState)
    (vaultId chainId : String) (coinType : Int) : KRState × Except KRError Unit :=
  if st.locked then (st, .error .locked) else
  match cfg.findChain chainId with
  | none => (st, .error .chainNotFound)
  | some chainInfo =>
    if chainInfo.bip44.coinType ≠ coinType ∧
        ((chainInfo.alternativeBIP44s.getD []).find?
          (fun path => path.coinType = coinType)) = none then
      (st, .error .unsupportedCoinType)
    else
      match findVault st.vaults vaultId with
      | none => (st, .error .vaultNull)
      | some vault =>
        if vault.insensitive.lookup "keyRingType" ≠ some (.str "mnemonic") then
          (st, .error .notMnemonic)
        else if truthyO (vault.insensitive.lookup (coinTypeTag chainId)) then
          (st, .error .alreadyFinalized)
        else
          (updateVaultIns st vaultId [(coinTypeTag chainId, .num coinType)], .ok ())

/-- `needMnemonicKeyCoinTypeFinalize` (part_001:174-193). -/
def needMnemonicKeyCoinTypeFinalize (st : KRState) (vaultId chainId : String) :
    Except KRError Bool :=
  if st.locked then .error .locked else
  match findVault st.vaults vaultId with
  | none => .error .vaultNull
  | some vault =>
    if vault.insensitive.lookup "keyRingType" ≠ some (.str "mnemonic") then
      .ok false
    else
      .ok (!truthyO (vault.insensitive.lookup (coinTypeTag chainId)))

/-- `appendLedgerKeyRing` (part_001:325-344); note the source has no lock check. -/
def appendLedgerKeyRing (st : KRState) (id : String) (pubKey : List Nat)
    (app : String) : KRState × Except KRError Unit :=
  match findVault st.vaults id with
  | none => (st, .error .vaultNull)
  | some vault =>
    if vault.insensitive.lookup "keyRingType" ≠ some (.str "ledger") then
      (st, .error .notLedger)
    else if truthyO (vault.insensitive.lookup app) then
      (st, .error .appAlreadyAppended)
    else
      (updateVaultIns st id
        [(app, .obj [("pubKey", bytesToHex pubKey)])], .ok ())

/-- `changeKeyRingName` (part_001:363-377). -/
def changeKeyRingName (st : KRState) (vaultId name : String) :
    KRState × Except KRError Unit :=
  if st.locked then (st, .error .locked) else
  match findVault st.vaults vaultId with
  | none => (st, .error .vaultNull)
  | some _vault =>
    (updateVaultIns st vaultId [("keyRingName", .str name)], .ok ())

/-- Result of `deleteKeyRing`: the state after the call, whether the
"keystore-changed" notification was dispatched, and the returned boolean. -/
structure DeleteOutcome where
  state : KRState
  notified : Bool
  result : Except KRError Bool
deriving DecidableEq, Repr

/-- `deleteKeyRing` (part_001:379-414): lock check, vault lookup, password
re-verification (Modelled from the spec §6: `checkUserPassword` compares with
the store's password), `wasSelected` via the `selectedVaultId` getter, removal,
re-selection of the first remaining entry when the deleted one was selected,
notification iff it was selected, and `wasSelected` returned. -/
def deleteKeyRing (st : KRState) (vaultId password : String) : DeleteOutcome :=
  if st.locked then ⟨st, false, .error .locked⟩ else
  match findVault st.vaults vaultId with
  | none => ⟨st, false, .error .vaultNull⟩
  | some _vault =>
    if password ≠ st.password then ⟨st, false, .error .invalidPassword⟩ else
    match selectedVaultIdGet st with
    | .error e => ⟨st, false, .error e⟩
    | .ok sel =>
      let wasSelected : Bool := sel = vaultId
      let vaults' := st.vaults.filter (fun v => v.id ≠ vaultId)
      let selected' : Option String :=
        if wasSelected then (vaults'.head?.map Vault.id) else st.selectedVaultId
      ⟨{ st with vaults := vaults', selectedVaultId := selected' },
        wasSelected, .ok wasSelected⟩

/-- Coin-type resolution inside `getPubKey`/`sign` (part_001:440-446, 512-518):
the stored tag if truthy (cast `as number`), else the chain's default. -/
def resolveCoinType (vault : Vault) (tag : String) (dflt : Int) : Int :=
  match vault.insensitive.lookup tag with
  | some v => if v.truthy then v.asNumber else dflt
  | none => dflt

/-- `getVaultKeyRing` (part_001:607-615): first registered strategy whose tag
strictly equals the vault's `keyRingType`. -/
def getVaultKeyRing (cfg : Config) (vault : Vault) : Option KeyRing :=
  cfg.keyRings.find? (fun k =>
    vault.insensitive.lookup "keyRingType" = some (.str k.supportedKeyRingType))

/-- `signWithVault` (part_001:549-565). -/
def signWithVault (cfg : Config) (st : KRState) (vault : Vault) (coinType : Int)
    (data : List Nat) (digestMethod : String) (chainInfo : ChainInfo) :
    Except KRError RawSig :=
  if st.locked then .error .locked else
  match getVaultKeyRing cfg vault with
  | none => .error .unsupportedKeyRing
  | some keyRing => .ok (keyRing.sign vault coinType data digestMethod chainInfo)

/-- `getPubKeyWithVault` (part_001:535-547). -/
def getPubKeyWithVault (cfg : Config) (st : KRState) (vault : Vault)
    (coinType : Int) (chainInfo : ChainInfo) : Except KRError (List Nat) :=
  if st.locked then .error .locked else
  match getVaultKeyRing cfg vault with
  | none => .error .unsupportedKeyRing
  | some keyRing => .ok (keyRing.getPubKey vault coinType chainInfo)

/-- `getPubKey` (part_001:424-449). -/
def getPubKey (cfg : Config) (st : KRState) (chainId vaultId : String) :
    Except KRError (List Nat) :=
  if st.locked then .error .locked else
  match cfg.findChain chainId with
  | none => .error .chainNotFound
  | some chainInfo =>
    match findVault st.vaults vaultId with
    | none => .error .vaultNull
    | some vault =>
      let coinType := resolveCoinType vault (coinTypeTag chainId)
        chainInfo.bip44.coinType
      getPubKeyWithVault cfg st vault coinType chainInfo

/-- `sign` (part_001:491-533).  After a successful strategy signature the
source merges `{ coinTypeTag: coinType }` into the vault — an ES6 object with
the literal property name `"coinTypeTag"`, not the computed per-chain tag. -/
def sign (cfg : Config) (st : KRState) (chainId vaultId : String)
    (data : List Nat) (digestMethod : String) : KRState × Except KRError RawSig :=
  if st.locked then (st, .error .locked) else
  match cfg.findChain chainId with
  | none => (st, .error .chainNotFound)
  | some chainInfo =>
    match findVault st.vaults vaultId with
    | none => (st, .error .vaultNull)
    | some vault =>
      let coinType := resolveCoinType vault (coinTypeTag chainId)
        chainInfo.bip44.coinType
      match signWithVault cfg st vault coinType data digestMethod chainInfo with
      | .error e => (st, .error e)
      | .ok signature =>
        (updateVaultIns st vault.id [("coinTypeTag", .num coinType)],
          .ok signature)

/-- `validateBIP44Path` (part_001:627-645); `Number.isInteger` holds for every
integer, the remaining guards are the range checks. -/
def validateBIP44Path (p : BIP44HDPath) : Except KRError Unit :=
  if p.account < 0 then .error .invalidAccount
  else if ¬(p.change = 0 ∨ p.change = 1) then .error .invalidChange
  else if p.addressIndex < 0 then .error .invalidAddressIndex
  else .ok ()

end KeyRingService

/-- Typed errors of the Starknet adapter (service.ts); `kr` wraps an error
propagated from the key-ring orchestrator. -/
inductive StarkError where
  | notStarknetChain
  | invalidSigner
  | invalidSignature
  | unsupportedVersion
  | edamConversion
  | uint256Range
  | kr (e : KRError)
deriving DecidableEq, Repr

/-- Opaque Starknet typed message (`TypedData`); the adapter never inspects it. -/
structure TypedData where
  raw : String
deriving DecidableEq, Repr

/-- One call of an invoke transaction (`Call`). -/
structure Call where
  contractAddress : String
  entrypoint : String
  calldata : List String
deriving DecidableEq, Repr

/-- `InvocationsSignerDetails` (v2 and v3 fields in one record; the source casts
the same value to `V2InvocationsSignerDetails` or `V3InvocationsSignerDetails`). -/
structure InvocationsSignerDetails where
  version : String
  walletAddress : String
  cairoVersion : String
  chainId : String
  nonce : String
  maxFee : String
  resourceBounds : String
  tip : String
  paymasterData : List String
  accountDeploymentData : List String
  nonceDataAvailabilityMode : String
  feeDataAvailabilityMode : String
deriving DecidableEq, Repr

/-- `DeployAccountSignerDetails` (v2 and v3 fields in one record). -/
structure DeployAccountSignerDetails where
  version : String
  contractAddress : String
  classHash : String
  addressSalt : String
  constructorCalldata : List String
  chainId : String
  nonce : String
  maxFee : String
  resourceBounds : String
  tip : String
  paymasterData : List String
  nonceDataAvailabilityMode : String
  feeDataAvailabilityMode : String
deriving DecidableEq, Repr

/-- `DeclareSignerDetails` (v2 and v3 fields in one record). -/
structure DeclareSignerDetails where
  version : String
  classHash : String
  compiledClassHash : String
  senderAddress : String
  chainId : String
  nonce : String
  maxFee : String
  resourceBounds : String
  tip : String
  paymasterData : List String
  accountDeploymentData : List String
  nonceDataAvailabilityMode : String
  feeDataAvailabilityMode : String
deriving DecidableEq, Repr

/-- `Object.values(ETransactionVersion2)` (service.ts:433-440). -/
def ETransactionVersion2 : List String :=
  ["0x0", "0x1", "0x2",
   "0x100000000000000000000000000000000",
   "0x100000000000000000000000000000001",
   "0x100000000000000000000000000000002"]

/-- `Object.values(ETransactionVersion3)` (service.ts:442-445). -/
def ETransactionVersion3 : List String :=
  ["0x3", "0x100000000000000000000000000000003"]

/-- `intDAM` (service.ts:457-461): symbolic data-availability mode to its
numeric protocol encoding, L1 ↦ 0 and L2 ↦ 1, anything else is an error. -/
def intDAM (dam : String) : Except StarkError Nat :=
  if dam = "L1" then .ok 0
  else if dam = "L2" then .ok 1
  else .error .edamConversion

/-- Modelled from the spec: the hash-computation rule-sets of the external
starknet library (`calculateInvokeTransactionHash`,
`calculateDeployAccountTransactionHash`, `calculateDeclareTransactionHash`,
`typedData.getMessageHash`).  Per the spec, v2-style and v3-style rule-sets of
each transaction kind hash materially different field sets; each rule-set is
modelled as a distinct injective constructor over exactly the fields the
adapter passes to the library call. -/
inductive MsgHash where
  | invokeV2 (senderAddress : String) (compiledCalldata : List String)
      (version chainId nonce maxFee : String)
  | invokeV3 (senderAddress : String) (compiledCalldata : List String)
      (version chainId nonce resourceBounds tip : String)
      (paymasterData accountDeploymentData : List String)
      (nonceDAM feeDAM : Nat)
  | deployAccountV2 (contractAddress classHash salt : String)
      (constructorCalldata : List String)
      (version chainId nonce maxFee : String)
  | deployAccountV3 (contractAddress classHash salt : String)
      (compiledConstructorCalldata : List String)
      (version chainId nonce resourceBounds tip : String)
      (paymasterData : List String)
      (nonceDAM feeDAM : Nat)
  | declareV2 (classHash compiledClassHash senderAddress
      version chainId nonce maxFee : String)
  | declareV3 (classHash compiledClassHash senderAddress
      version chainId nonce resourceBounds tip : String)
      (paymasterData accountDeploymentData : List String)
      (nonceDAM feeDAM : Nat)
  | typedMessage (td : TypedData) (signer : String)
deriving DecidableEq, Repr

/-- Modelled from the spec: the external starknet library's
`transaction.getExecuteCalldata` — a pure compilation of the calls under the
given cairo version; no claim depends on its exact value. -/
def getExecuteCalldata (transactions : List Call) (cairoVersion : String) :
    List String :=
  cairoVersion :: (transactions.map
    (fun c => c.contractAddress :: c.entrypoint :: c.calldata)).flatten

/-- Modelled from the spec: the external starknet library's `CallData.compile`
on an already-flat constructor calldata; no claim depends on its exact value. -/
def callDataCompile (calldata : List String) : List String := calldata

namespace KeyRingStarknetService

/-- Version branch of `signStarknetTransaction` (service.ts:210-234): selects
the v2 or v3 invoke rule-set from the declared version, mapping both
data-availability modes through `intDAM` in the v3 branch, and fails on any
other version. -/
def invokeMsgHash (det : InvocationsSignerDetails)
    (compiledCalldata : List String) : Except StarkError MsgHash :=
  if ETransactionVersion2.contains det.version then
    .ok (.invokeV2 det.walletAddress compiledCalldata det.version det.chainId
      det.nonce det.maxFee)
  else if ETransactionVersion3.contains det.version then do
    let nonceDAM ← intDAM det.nonceDataAvailabilityMode
    let feeDAM ← intDAM det.feeDataAvailabilityMode
    .ok (.invokeV3 det.walletAddress compiledCalldata det.version det.chainId
      det.nonce det.resourceBounds det.tip det.paymasterData
      det.accountDeploymentData nonceDAM feeDAM)
  else .error .unsupportedVersion

/-- Version branch of `signStarknetDeployAccountTransaction`
(service.ts:275-302). -/
def deployAccountMsgHash (det : DeployAccountSignerDetails) :
    Except StarkError MsgHash :=
  let compiledConstructorCalldata := callDataCompile det.constructorCalldata
  if ETransactionVersion2.contains det.version then
    .ok (.deployAccountV2 det.contractAddress det.classHash det.addressSalt
      compiledConstructorCalldata det.version det.chainId det.nonce det.maxFee)
  else if ETransactionVersion3.contains det.version then do
    let nonceDAM ← intDAM det.nonceDataAvailabilityMode
    let feeDAM ← intDAM det.feeDataAvailabilityMode
    .ok (.deployAccountV3 det.contractAddress det.classHash det.addressSalt
      compiledConstructorCalldata det.version det.chainId det.nonce
      det.resourceBounds det.tip det.paymasterData nonceDAM feeDAM)
  else .error .unsupportedVersion

/-- Version branch of `signStarknetDeclareTransactionn` (service.ts:343-363). -/
def declareMsgHash (det : DeclareSignerDetails) : Except StarkError MsgHash :=
  if ETransactionVersion2.contains det.version then
    .ok (.declareV2 det.classHash det.compiledClassHash det.senderAddress
      det.version det.chainId det.nonce det.maxFee)
  else if ETransactionVersion3.contains det.version then do
    let nonceDAM ← intDAM det.nonceDataAvailabilityMode
    let feeDAM ← intDAM det.feeDataAvailabilityMode
    .ok (.declareV3 det.classHash det.compiledClassHash det.senderAddress
      det.version det.chainId det.nonce det.resourceBounds det.tip
      det.paymasterData det.accountDeploymentData nonceDAM feeDAM)
  else .error .unsupportedVersion

/-- The low/high limbs of `new CairoUint256(x).toUint256HexString()`:
Modelled from the spec — the value is read as a 256-bit unsigned integer
(the constructor rejects anything larger) and split into the low and the high
128-bit limb, each rendered as 0x-prefixed lowercase hex. -/
def toUint256HexString (n : Nat) : Except StarkError (String × String) :=
  if n < 2 ^ 256 then
    .ok ("0x" ++ natToHex (n % 2 ^ 128), "0x" ++ natToHex (n / 2 ^ 128))
  else .error .uint256Range

/-- `formatEthSignature` (service.ts:374-390): a null recovery indicator fails;
otherwise r and s are read as 256-bit big-endian unsigned integers, split into
128-bit limbs, and the five fields `[r.low, r.high, s.low, s.high, 0x<v>]` are
returned in that order. -/
def formatEthSignature (sig : RawSig) : Except StarkError (List String) :=
  match sig.v with
  | none => .error .invalidSignature
  | some v => do
    let r ← toUint256HexString (bytesToNat sig.r)
    let s ← toUint256HexString (bytesToNat sig.s)
    return [r.1, r.2, s.1, s.2, "0x" ++ natToHex v]

/-- The fixed deployment salt `Buffer.from("11", "hex")` (service.ts:70). -/
def starknetSalt : List Nat := hexToBytes "11".toList

/-- The fixed account class hash constant (service.ts:71-74). -/
def starknetClassHash : List Nat := hexToBytes
  "02203673e728fa07de1c2ea60405399ffefaf875f1b7ae54e747659e1e216d94".toList

/-- The resolved Starknet identity of a vault (service.ts:56-81). -/
structure StarknetKey where
  hexAddress : String
  pubKey : List Nat
  address : List Nat
deriving DecidableEq, Repr

/-- `getStarknetKey` (service.ts:53-82): modular chain lookup, starknet-section
check, public-key resolution through the orchestrator, then the external
address derivation under the fixed salt and class hash. -/
def getStarknetKey (cfg : Config) (st : KRState) (vaultId chainId : String) :
    Except StarkError StarknetKey :=
  match cfg.findChain chainId with
  | none => .error (.kr .chainNotFound)
  | some chainInfo =>
    if ¬chainInfo.hasStarknet then .error .notStarknetChain
    else
      match KeyRingService.getPubKey cfg st chainId vaultId with
      | .error e => .error (.kr e)
      | .ok pubKey =>
        let address := cfg.getStarknetAddress pubKey starknetSalt
          starknetClassHash
        .ok ⟨"0x" ++ bytesToHex address, pubKey, address⟩

/-- Observable milestones of an adapter signing call, in order: the digest
passed to the hash library, then the signing request sent to the key ring. -/
inductive AdapterEvent where
  | digestComputed (h : MsgHash)
  | signRequested (chainId vaultId : String)
deriving DecidableEq, Repr

/-- Result of one adapter signing entry point: the returned value or error, the
key-ring state after the call, and the milestone trace. -/
structure SignOutcome where
  result : Except StarkError (List String)
  state : KRState
  events : List AdapterEvent
deriving DecidableEq, Repr

/-- Common tail of the four signing entry points: hand the digest's bytes to
`KeyRingService.sign` under the "keccak256" convention and re-encode the raw
signature.  `hashEval` is the external evaluation of the symbolic digest to the
byte string `Buffer.from(msgHash.replace("0x", ""), "hex")`. -/
def requestSignature (cfg : Config) (hashEval : MsgHash → List Nat)
    (st : KRState) (chainId vaultId : String) (h : MsgHash) : SignOutcome :=
  match KeyRingService.sign cfg st chainId vaultId (hashEval h) "keccak256" with
  | (st', .error e) =>
    ⟨.error (.kr e), st', [.digestComputed h, .signRequested chainId vaultId]⟩
  | (st', .ok sig) =>
    ⟨formatEthSignature sig, st',
      [.digestComputed h, .signRequested chainId vaultId]⟩

/-- `signStarknetMessage` (service.ts:149-171): resolve the vault's Starknet
identity, reject a mismatched signer before anything else, hash the typed
message, sign, re-encode. -/
def signStarknetMessage (cfg : Config) (hashEval : MsgHash → List Nat)
    (st : KRState) (vaultId chainId signer : String) (typedData : TypedData) :
    SignOutcome :=
  match getStarknetKey cfg st vaultId chainId with
  | .error e => ⟨.error e, st, []⟩
  | .ok key =>
    if key.hexAddress ≠ signer then ⟨.error .invalidSigner, st, []⟩
    else
      requestSignature cfg hashEval st chainId vaultId
        (.typedMessage typedData signer)

/-- `signStarknetTransaction` (service.ts:192-243). -/
def signStarknetTransaction (cfg : Config) (hashEval : MsgHash → List Nat)
    (st : KRState) (vaultId chainId signer : String)
    (transactions : List Call) (details : InvocationsSignerDetails) :
    SignOutcome :=
  match getStarknetKey cfg st vaultId chainId with
  | .error e => ⟨.error e, st, []⟩
  | .ok key =>
    if key.hexAddress ≠ signer then ⟨.error .invalidSigner, st, []⟩
    else
      let compiledCalldata := getExecuteCalldata transactions
        details.cairoVersion
      match invokeMsgHash details compiledCalldata with
      | .error e => ⟨.error e, st, []⟩
      | .ok h => requestSignature cfg hashEval st chainId vaultId h

/-- `signStarknetDeployAccountTransaction` (service.ts:262-311). -/
def signStarknetDeployAccountTransaction (cfg : Config)
    (hashEval : MsgHash → List Nat) (st : KRState)
    (vaultId chainId signer : String) (details : DeployAccountSignerDetails) :
    SignOutcome :=
  match getStarknetKey cfg st vaultId chainId with
  | .error e => ⟨.error e, st, []⟩
  | .ok key =>
    if key.hexAddress ≠ signer then ⟨.error .invalidSigner, st, []⟩
    else
      match deployAccountMsgHash details with
      | .error e => ⟨.error e, st, []⟩
      | .ok h => requestSignature cfg hashEval st chainId vaultId h

/-- `signStarknetDeclareTransactionn` (service.ts:330-372). -/
def signStarknetDeclareTransaction (cfg : Config)
    (hashEval : MsgHash → List Nat) (st : KRState)
    (vaultId chainId signer : String) (details : DeclareSignerDetails) :
    SignOutcome :=
  match getStarknetKey cfg st vaultId chainId with
  | .error e => ⟨.error e, st, []⟩
  | .ok key =>
    if key.hexAddress ≠ signer then ⟨.error .invalidSigner, st, []⟩
    else
      match declareMsgHash details with
      | .error e => ⟨.error e, st, []⟩
      | .ok h => requestSignature cfg hashEval st chainId vaultId h

end KeyRingStarknetService

/-! ### Helper lemmas -/

theorem updVaultF_id (pid : String) (patch : List (String × IValue)) (v : Vault) :
    (updVaultF pid patch v).id = v.id := by
  unfold updVaultF; split <;> rfl

theorem find?_map_pres_pred (f : Vault → Vault) (p : Vault → Bool)
    (l : List Vault) (hp : ∀ a, p (f a) = p a) :
    (l.map f).find? p = (l.find? p).map f := by
  induction l with
  | nil => rfl
  | cons a l ih =>
    simp only [List.map_cons, List.find?, hp a]
    cases hpa : p a <;> simp [ih]

theorem findVault_update (vs : List Vault) (pid id : String)
    (patch : List (String × IValue)) :
    findVault (vs.map (updVaultF pid patch)) id =
      (findVault vs id).map (updVaultF pid patch) := by
  unfold findVault
  exact find?_map_pres_pred _ _ vs (fun a => by rw [updVaultF_id])

theorem findVault_filter_ne (vs : List Vault) (did id : String) (h : id ≠ did) :
    findVault (vs.filter (fun v => v.id ≠ did)) id = findVault vs id := by
  induction vs with
  | nil => rfl
  | cons a l ih =>
    unfold findVault at *
    rcases Decidable.em (a.id = did) with ha | ha
    · have h1 : List.filter (fun v => decide (v.id ≠ did)) (a :: l) =
          List.filter (fun v => decide (v.id ≠ did)) l := by
        simp [List.filter_cons, ha]
      have h2 : List.find? (fun v => decide (v.id = id)) (a :: l) =
          List.find? (fun v => decide (v.id = id)) l := by
        refine List.find?_cons_of_neg _ ?_
        simp only [decide_eq_true_eq]
        intro hc; exact h (hc.symm.trans ha)
      rw [h1, h2, ih]
    · have h1 : List.filter (fun v => decide (v.id ≠ did)) (a :: l) =
          a :: List.filter (fun v => decide (v.id ≠ did)) l := by
        simp [List.filter_cons, ha]
      rw [h1]
      cases hpa : (decide (a.id = id)) with
      | true => simp [List.find?_cons, hpa]
      | false =>
        have e1 : List.find? (fun v => decide (v.id = id))
            (a :: List.filter (fun v => decide (v.id ≠ did)) l) =
            List.find? (fun v => decide (v.id = id))
            (List.filter (fun v => decide (v.id ≠ did)) l) :=
          List.find?_cons_of_neg _ (by simp [hpa])
        have e2 : List.find? (fun v => decide (v.id = id)) (a :: l) =
            List.find? (fun v => decide (v.id = id)) l :=
          List.find?_cons_of_neg _ (by simp [hpa])
        rw [e1, e2, ih]

theorem coinTypeTag_length (ch : String) :
    (coinTypeTag ch).length = ch.length + 17 := by
  unfold coinTypeTag
  rw [String.length_append, String.length_append]
  have h1 : ("keyRing-" : String).length = 8 := rfl
  have h2 : ("-coinType" : String).length = 9 := rfl
  omega

theorem coinTypeTag_ne_keyRingType (ch : String) :
    coinTypeTag ch ≠ "keyRingType" := by
  intro h
  have := congrArg String.length h
  rw [coinTypeTag_length] at this
  have h11 : ("keyRingType" : String).length = 11 := rfl
  omega

theorem coinTypeTag_ne_literal (ch : String) :
    coinTypeTag ch ≠ "coinTypeTag" := by
  intro h
  have := congrArg String.length h
  rw [coinTypeTag_length] at this
  have h11 : ("coinTypeTag" : String).length = 11 := rfl
  omega

theorem coinTypeTag_ne_keyRingName (ch : String) :
    coinTypeTag ch ≠ "keyRingName" := by
  intro h
  have := congrArg String.length h
  rw [coinTypeTag_length] at this
  have h11 : ("keyRingName" : String).length = 11 := rfl
  omega

theorem lookup_cons_ne {β : Type} (k k' : String) (v : β)
    (l : List (String × β)) (h : k ≠ k') :
    List.lookup k ((k', v) :: l) = List.lookup k l := by
  simp [List.lookup, beq_eq_false_iff_ne.mpr h]

theorem lookup_cons_self {β : Type} (k : String) (v : β)
    (l : List (String × β)) : List.lookup k ((k, v) :: l) = some v := by
  simp [List.lookup]

theorem lookup_append {β : Type} (k : String) (l1 l2 : List (String × β)) :
    List.lookup k (l1 ++ l2) =
      match List.lookup k l1 with
      | some v => some v
      | none => List.lookup k l2 := by
  induction l1 with
  | nil => rfl
  | cons a l ih =>
    rcases a with ⟨k', v⟩
    rcases Decidable.em (k = k') with hk | hk
    · subst hk; simp [List.lookup]
    · simp only [List.cons_append, lookup_cons_ne _ _ _ _ hk, ih]

/-- The `keyRingType` value of vault `vid`, viewed through the store
(`none` when the vault does not exist). -/
def tyAt (st : KRState) (vid : String) : Option (Option IValue) :=
  (findVault st.vaults vid).map (fun v => v.insensitive.lookup "keyRingType")

theorem tyAt_update (st : KRState) (pid : String)
    (patch : List (String × IValue)) (hp : List.lookup "keyRingType" patch = none)
    (vid : String) : tyAt (updateVaultIns st pid patch) vid = tyAt st vid := by
  unfold tyAt updateVaultIns
  simp only
  rw [findVault_update]
  cases hv : findVault st.vaults vid with
  | none => rfl
  | some v =>
    simp only [Option.map, updVaultF]
    split
    · simp only [lookup_append, hp]
    · rfl

theorem finalize_ok_inv (cfg : Config) (st : KRState) (vaultId chainId : String)
    (coinType : Int) (st1 : KRState)
    (h : KeyRingService.finalizeMnemonicKeyCoinType cfg st vaultId chainId
      coinType = (st1, .ok ())) :
    st.locked = false ∧
    ∃ ci vault, cfg.findChain chainId = some ci ∧
      findVault st.vaults vaultId = some vault ∧
      vault.id = vaultId ∧
      vault.insensitive.lookup "keyRingType" = some (.str "mnemonic") ∧
      truthyO (vault.insensitive.lookup (coinTypeTag chainId)) = false ∧
      st1 = updateVaultIns st vaultId [(coinTypeTag chainId, .num coinType)] := by
  unfold KeyRingService.finalizeMnemonicKeyCoinType at h
  split at h
  next hl => simp at h
  next hl =>
  split at h
  next => simp at h
  next ci hci =>
  split at h
  next => simp at h
  next hvalid =>
  split at h
  next => simp at h
  next vault hv =>
  split at h
  next => simp at h
  next hty =>
  split at h
  next => simp at h
  next htag =>
  have hid : vault.id = vaultId := by
    have := List.find?_some hv
    simpa using this
  have hst1 : st1 = updateVaultIns st vaultId [(coinTypeTag chainId, .num coinType)] := by
    have := congrArg Prod.fst h
    simpa using this.symm
  exact ⟨by simpa using hl, ci, vault, hci, hv, hid, not_not.mp hty,
    by simpa using htag, hst1⟩

theorem finalize_already (cfg : Config) (st : KRState) (vaultId chainId : String)
    (c' : Int) (ci : ChainInfo) (vault : Vault)
    (hl : st.locked = false)
    (hci : cfg.findChain chainId = some ci)
    (hvalid : ¬(ci.bip44.coinType ≠ c' ∧
      ((ci.alternativeBIP44s.getD []).find? (fun path => path.coinType = c'))
        = none))
    (hv : findVault st.vaults vaultId = some vault)
    (hty : vault.insensitive.lookup "keyRingType" = some (.str "mnemonic"))
    (htag : truthyO (vault.insensitive.lookup (coinTypeTag chainId)) = true) :
    KeyRingService.finalizeMnemonicKeyCoinType cfg st vaultId chainId c'
      = (st, .error .alreadyFinalized) := by
  unfold KeyRingService.finalizeMnemonicKeyCoinType
  rw [hl, hci]
  simp only [Bool.false_eq_true, if_false]
  rw [if_neg hvalid, hv]
  simp only [hty, htag]
  simp

theorem need_false (st : KRState) (vaultId chainId : String) (vault : Vault)
    (hl : st.locked = false)
    (hv : findVault st.vaults vaultId = some vault)
    (htag : truthyO (vault.insensitive.lookup (coinTypeTag chainId)) = true) :
    KeyRingService.needMnemonicKeyCoinTypeFinalize st vaultId chainId
      = .ok false := by
  unfold KeyRingService.needMnemonicKeyCoinTypeFinalize
  rw [hl, hv]
  simp only [Bool.false_eq_true, if_false]
  split
  · rfl
  · rw [htag]; rfl

/-- Fixture: a chain whose default coin type is the (valid) value 0. -/
def zeroChain : ChainInfo := ⟨"chainzero", ⟨0⟩, none, false⟩

/-- Fixture: a chain with default coin type 118 and alternative coin type 60. -/
def atomChain : ChainInfo := ⟨"cosmoshub", ⟨118⟩, some [⟨60⟩], false⟩

/-- Fixture: the registered mnemonic strategy with stub derivation callbacks. -/
def mnemonicKeyRingFix : KeyRing :=
  ⟨"mnemonic", fun _ _ _ => [4, 5], fun _ _ _ _ _ => ⟨[1], [2], some 1⟩⟩

/-- Fixture: injected collaborators. -/
def cfgFix : Config :=
  ⟨[zeroChain, atomChain], [mnemonicKeyRingFix], fun pk _ _ => pk⟩

/-- Fixture: one unlocked mnemonic vault `v1`, selected. -/
def stFix : KRState :=
  ⟨false, true, "pw",
    [⟨"v1", [("keyRingName", .str "a"), ("keyRingType", .str "mnemonic")]⟩],
    some "v1"⟩

/-- C1 fails on the code: the already-finalized guard is a JS truthiness check,
so a finalized coin type of 0 is stored as a falsy tag — a second finalization
of the same (vault, chain) with the same valid coin type 0 succeeds instead of
failing with AlreadyFinalized, and needMnemonicKeyCoinTypeFinalize still
returns true; furthermore, after a successful finalization with the nonzero
coin type 118, a second call with the chain-invalid coin type 119 fails with
UnsupportedCoinType, not AlreadyFinalized. -/
theorem finalizeCoinType_refinalize_cex :
    (KeyRingService.finalizeMnemonicKeyCoinType cfgFix stFix "v1" "chainzero"
      0).2 = .ok () ∧
    (KeyRingService.finalizeMnemonicKeyCoinType cfgFix
      (KeyRingService.finalizeMnemonicKeyCoinType cfgFix stFix "v1" "chainzero"
        0).1 "v1" "chainzero" 0).2 = .ok () ∧
    KeyRingService.needMnemonicKeyCoinTypeFinalize
      (KeyRingService.finalizeMnemonicKeyCoinType cfgFix stFix "v1" "chainzero"
        0).1 "v1" "chainzero" = .ok true ∧
    (KeyRingService.finalizeMnemonicKeyCoinType cfgFix
      (KeyRingService.finalizeMnemonicKeyCoinType cfgFix stFix "v1" "cosmoshub"
        118).1 "v1" "cosmoshub" 119).2 = .error .unsupportedCoinType :=
  ⟨rfl, rfl, rfl, rfl⟩

/-- C1 (amended): for every (vault, chain) pair, once finalizeMnemonicKeyCoinType
succeeds with a valid nonzero coin type, a second finalization call with any
coin type that is valid for the chain fails with AlreadyFinalized and leaves
the state unchanged (a chain-invalid second coin type fails with
UnsupportedCoinType instead), and needMnemonicKeyCoinTypeFinalize returns
false for that pair thereafter. -/
theorem finalizeCoinType_once_nonzero (cfg : Config) (st st1 : KRState)
    (vaultId chainId : String) (c c' : Int) (ci : ChainInfo)
    (hok : KeyRingService.finalizeMnemonicKeyCoinType cfg st vaultId chainId c
      = (st1, .ok ()))
    (hc : c ≠ 0)
    (hci : cfg.findChain chainId = some ci)
    (hvalid : ¬(ci.bip44.coinType ≠ c' ∧
      ((ci.alternativeBIP44s.getD []).find? (fun path => path.coinType = c'))
        = none)) :
    KeyRingService.finalizeMnemonicKeyCoinType cfg st1 vaultId chainId c'
      = (st1, .error .alreadyFinalized) ∧
    KeyRingService.needMnemonicKeyCoinTypeFinalize st1 vaultId chainId
      = .ok false := by
  obtain ⟨hl, ci', vault, hci', hv, hid, hty, htag, hst1⟩ :=
    finalize_ok_inv _ _ _ _ _ _ hok
  subst hst1
  have hl1 : (updateVaultIns st vaultId
      [(coinTypeTag chainId, .num c)]).locked = false := hl
  have hfv : findVault (updateVaultIns st vaultId
        [(coinTypeTag chainId, .num c)]).vaults vaultId
      = some { vault with
          insensitive := (coinTypeTag chainId, .num c) :: vault.insensitive } := by
    show findVault (st.vaults.map (updVaultF vaultId _)) vaultId = _
    rw [findVault_update, hv]
    simp [updVaultF, hid]
  have hty1 : ({ vault with
        insensitive := (coinTypeTag chainId, .num c) :: vault.insensitive }
          : Vault).insensitive.lookup "keyRingType"
      = some (.str "mnemonic") := by
    simpa [lookup_cons_ne _ _ _ _
      (Ne.symm (coinTypeTag_ne_keyRingType chainId))] using hty
  have htag1 : truthyO (({ vault with
        insensitive := (coinTypeTag chainId, .num c) :: vault.insensitive }
          : Vault).insensitive.lookup (coinTypeTag chainId)) = true := by
    simp [lookup_cons_self, truthyO, IValue.truthy, hc]
  exact ⟨finalize_already _ _ _ _ _ _ _ hl1 hci hvalid hfv hty1 htag1,
    need_false _ _ _ _ hl1 hfv htag1⟩

/-- Witness for the amended C1 theorem at a concrete input: finalize coin type
118 on `cosmoshub`, then re-finalize with the valid alternative 60. -/
theorem finalizeCoinType_once_nonzero_witness :
    KeyRingService.finalizeMnemonicKeyCoinType cfgFix
        (KeyRingService.finalizeMnemonicKeyCoinType cfgFix stFix "v1"
          "cosmoshub" 118).1 "v1" "cosmoshub" 60
      = ((KeyRingService.finalizeMnemonicKeyCoinType cfgFix stFix "v1"
          "cosmoshub" 118).1, .error .alreadyFinalized) ∧
    KeyRingService.needMnemonicKeyCoinTypeFinalize
        (KeyRingService.finalizeMnemonicKeyCoinType cfgFix stFix "v1"
          "cosmoshub" 118).1 "v1" "cosmoshub" = .ok false :=
  finalizeCoinType_once_nonzero cfgFix stFix _ "v1" "cosmoshub" 118 60
    atomChain rfl (by decide) rfl (by decide)

/-- C6: for every vault, chain and coin type - on an unlocked state, if the coin
type is neither the chain's default nor one of its declared alternatives,
finalizeMnemonicKeyCoinType fails with UnsupportedCoinType and returns the
state unchanged (no vault entry field and no selection state is mutated). -/
theorem finalizeCoinType_unsupported_coinType (cfg : Config) (st : KRState)
    (vaultId chainId : String) (c : Int) (ci : ChainInfo)
    (hl : st.locked = false)
    (hci : cfg.findChain chainId = some ci)
    (hdef : ci.bip44.coinType ≠ c)
    (halt : ((ci.alternativeBIP44s.getD []).find?
      (fun path => path.coinType = c)) = none) :
    KeyRingService.finalizeMnemonicKeyCoinType cfg st vaultId chainId c
      = (st, .error .unsupportedCoinType) := by
  unfold KeyRingService.finalizeMnemonicKeyCoinType
  rw [hl, hci]
  simp only [Bool.false_eq_true, if_false]
  rw [if_pos ⟨hdef, halt⟩]

/-- Witness for the C6 theorem: coin type 5 is neither the default 0 of
`chainzero` nor among its (absent) alternatives. -/
theorem finalizeCoinType_unsupported_coinType_witness :
    KeyRingService.finalizeMnemonicKeyCoinType cfgFix stFix "v1" "chainzero" 5
      = (stFix, .error .unsupportedCoinType) :=
  finalizeCoinType_unsupported_coinType cfgFix stFix "v1" "chainzero" 5
    zeroChain rfl rfl (by decide) rfl

/-- C8: derivation-path validation - account -1 fails, change 2 fails,
addressIndex -1 fails, change 0 and 1 both succeed, and every path with a
non-negative account, change in 0 or 1, and non-negative addressIndex passes. -/
theorem validateBIP44Path_cases :
    KeyRingService.validateBIP44Path ⟨-1, 0, 0⟩ = .error .invalidAccount ∧
    KeyRingService.validateBIP44Path ⟨0, 2, 0⟩ = .error .invalidChange ∧
    KeyRingService.validateBIP44Path ⟨0, 0, -1⟩ = .error .invalidAddressIndex ∧
    KeyRingService.validateBIP44Path ⟨0, 0, 0⟩ = .ok () ∧
    KeyRingService.validateBIP44Path ⟨0, 1, 0⟩ = .ok () ∧
    ∀ p : BIP44HDPath, 0 ≤ p.account → (p.change = 0 ∨ p.change = 1) →
      0 ≤ p.addressIndex → KeyRingService.validateBIP44Path p = .ok () := by
  refine ⟨by decide, by decide, by decide, by decide, by decide, ?_⟩
  intro p ha hc hi
  unfold KeyRingService.validateBIP44Path
  rw [if_neg (by omega), if_neg (not_not_intro hc), if_neg (by omega)]

/-- Witness for the C8 theorem's universally quantified clause at a concrete
all-valid path. -/
theorem validateBIP44Path_cases_witness :
    KeyRingService.validateBIP44Path ⟨2, 1, 3⟩ = .ok () :=
  validateBIP44Path_cases.2.2.2.2.2 ⟨2, 1, 3⟩ (by decide) (by decide) (by decide)

theorem lookupAt_update (st : KRState) (pid : String)
    (patch : List (String × IValue)) (k : String)
    (hp : List.lookup k patch = none) (vid : String) :
    (findVault (updateVaultIns st pid patch).vaults vid).map
        (fun v => v.insensitive.lookup k)
      = (findVault st.vaults vid).map (fun v => v.insensitive.lookup k) := by
  unfold updateVaultIns
  simp only
  rw [findVault_update]
  cases hv : findVault st.vaults vid with
  | none => rfl
  | some v =>
    simp only [Option.map, updVaultF]
    split
    · simp only [lookup_append, hp]
    · rfl

theorem sign_ok_inv (cfg : Config) (st : KRState) (chainId vaultId : String)
    (data : List Nat) (dm : String) (st' : KRState) (sig : RawSig)
    (h : KeyRingService.sign cfg st chainId vaultId data dm = (st', .ok sig)) :
    ∃ vault ct, findVault st.vaults vaultId = some vault ∧
      st' = updateVaultIns st vault.id [("coinTypeTag", .num ct)] := by
  unfold KeyRingService.sign at h
  split at h
  next => simp at h
  next hl =>
  split at h
  next => simp at h
  next ci hci =>
  split at h
  next => simp at h
  next vault hv =>
  simp only [] at h
  split at h
  next => simp at h
  next sig' hsig =>
  refine ⟨vault, KeyRingService.resolveCoinType vault (coinTypeTag chainId)
    ci.bip44.coinType, hv, ?_⟩
  have := congrArg Prod.fst h
  simpa using this.symm

/-- C2: a successful sign call leaves every per-chain coin-type finalization tag
(`keyRing-<chain>-coinType`) of every vault unchanged: the merge the source
performs after signing writes the literal property name `"coinTypeTag"`, never
a computed per-chain tag, so the tag written by finalizeMnemonicKeyCoinType is
not persisted as a side effect of signing. -/
theorem sign_preserves_coinType_tags (cfg : Config) (st : KRState)
    (chainId vaultId : String) (data : List Nat) (dm : String)
    (st' : KRState) (sig : RawSig)
    (h : KeyRingService.sign cfg st chainId vaultId data dm = (st', .ok sig)) :
    ∀ ch vid, (findVault st'.vaults vid).map
        (fun v => v.insensitive.lookup (coinTypeTag ch))
      = (findVault st.vaults vid).map
        (fun v => v.insensitive.lookup (coinTypeTag ch)) := by
  obtain ⟨vault, ct, hv, hst'⟩ := sign_ok_inv _ _ _ _ _ _ _ _ h
  subst hst'
  intro ch vid
  refine lookupAt_update st vault.id _ (coinTypeTag ch) ?_ vid
  rw [lookup_cons_ne _ _ _ _ (coinTypeTag_ne_literal ch)]
  rfl

/-- Witness for the C2 theorem: a concrete successful sign call on `cosmoshub`
leaves the `keyRing-cosmoshub-coinType` tag of vault `v1` unchanged. -/
theorem sign_preserves_coinType_tags_witness :
    (findVault (KeyRingService.sign cfgFix stFix "cosmoshub" "v1" [9]
        "sha256").1.vaults "v1").map
        (fun v => v.insensitive.lookup (coinTypeTag "cosmoshub"))
      = (findVault stFix.vaults "v1").map
        (fun v => v.insensitive.lookup (coinTypeTag "cosmoshub")) :=
  sign_preserves_coinType_tags cfgFix stFix "cosmoshub" "v1" [9] "sha256"
    _ _ rfl "cosmoshub" "v1"

theorem delete_ok_inv (st : KRState) (vaultId pw : String)
    (out : KeyRingService.DeleteOutcome)
    (h : KeyRingService.deleteKeyRing st vaultId pw = out) (b : Bool)
    (hb : out.result = .ok b) :
    ∃ sel, KeyRingService.selectedVaultIdGet st = .ok sel ∧
      b = decide (sel = vaultId) ∧
      out.notified = b ∧
      out.state.vaults = st.vaults.filter (fun v => v.id ≠ vaultId) ∧
      out.state.selectedVaultId =
        (if b = true then
          ((st.vaults.filter (fun v => v.id ≠ vaultId)).head?.map Vault.id)
         else st.selectedVaultId) := by
  unfold KeyRingService.deleteKeyRing at h
  split at h
  next => subst h; simp at hb
  next hl =>
  split at h
  next => subst h; simp at hb
  next vlt hv =>
  split at h
  next => subst h; simp at hb
  next hpw =>
  split at h
  next e hsel => subst h; simp at hb
  next sel hsel =>
  simp only [] at h
  subst h
  simp only [Except.ok.injEq] at hb
  refine ⟨sel, hsel, hb.symm, hb, rfl, ?_⟩
  rw [← hb]

/-- Fixture: two vaults `v1` (mnemonic, selected) and `v2` (ledger), unlocked. -/
def st2Fix : KRState :=
  ⟨false, true, "pw",
    [⟨"v1", [("keyRingName", .str "a"), ("keyRingType", .str "mnemonic")]⟩,
     ⟨"v2", [("keyRingName", .str "b"), ("keyRingType", .str "ledger")]⟩],
    some "v1"⟩

/-- C7: on a successful deleteKeyRing call (unlocked state, correct password),
the "keystore-changed" notification fires exactly when the returned flag says
the deleted vault was the selected one, and in that case the new selection is
the id of the first remaining vault entry, or absent when none remain. -/
theorem deleteKeyRing_reselect_notify (st : KRState) (vaultId pw : String)
    (out : KeyRingService.DeleteOutcome) (b : Bool)
    (h : KeyRingService.deleteKeyRing st vaultId pw = out)
    (hb : out.result = .ok b) :
    out.notified = b ∧
    (b = true →
      out.state.selectedVaultId = out.state.vaults.head?.map Vault.id) := by
  obtain ⟨sel, hsel, hbd, hn, hvs, hsel'⟩ := delete_ok_inv st vaultId pw out h b hb
  refine ⟨hn, ?_⟩
  intro hbt
  rw [hsel', if_pos hbt, hvs]

/-- Witness for the C7 theorem: deleting the selected vault `v1` from a
two-vault state notifies and re-selects the first remaining entry. -/
theorem deleteKeyRing_reselect_notify_witness :
    (KeyRingService.deleteKeyRing st2Fix "v1" "pw").notified = true ∧
    (true = true →
      (KeyRingService.deleteKeyRing st2Fix "v1" "pw").state.selectedVaultId
      = (KeyRingService.deleteKeyRing st2Fix "v1"
          "pw").state.vaults.head?.map Vault.id) :=
  deleteKeyRing_reselect_notify st2Fix "v1" "pw" _ true rfl rfl

/-- C10: the boolean returned by a successful deleteKeyRing call is true exactly
when the deleted vault was the selected one as resolved by the selectedVaultId
getter (including its first-entry fallback) at the time of deletion. -/
theorem deleteKeyRing_returns_wasSelected (st : KRState) (vaultId pw : String)
    (out : KeyRingService.DeleteOutcome) (b : Bool)
    (h : KeyRingService.deleteKeyRing st vaultId pw = out)
    (hb : out.result = .ok b) :
    (b = true ↔ KeyRingService.selectedVaultIdGet st = .ok vaultId) := by
  obtain ⟨sel, hsel, hbd, -, -, -⟩ := delete_ok_inv st vaultId pw out h b hb
  constructor
  · intro hbt
    rw [hbd] at hbt
    have hsv : sel = vaultId := of_decide_eq_true hbt
    rw [← hsv]; exact hsel
  · intro hok
    rw [hsel] at hok
    have hsv : sel = vaultId := by
      injection hok
    rw [hbd, hsv]; simp

/-- Witness for the C10 theorem: deleting `v1`, the selected vault of the
two-vault fixture, returns true. -/
theorem deleteKeyRing_returns_wasSelected_witness :
    (true = true ↔ KeyRingService.selectedVaultIdGet st2Fix = .ok "v1") :=
  deleteKeyRing_returns_wasSelected st2Fix "v1" "pw" _ true rfl rfl

theorem tyAt_finalize (cfg : Config) (st : KRState) (v ch : String) (c : Int)
    (vid : String) :
    tyAt (KeyRingService.finalizeMnemonicKeyCoinType cfg st v ch c).1 vid
      = tyAt st vid := by
  unfold KeyRingService.finalizeMnemonicKeyCoinType
  repeat' split
  any_goals rfl
  exact tyAt_update st v _
    (by rw [lookup_cons_ne _ _ _ _ (Ne.symm (coinTypeTag_ne_keyRingType ch))]
        rfl) vid

theorem tyAt_append (st : KRState) (aid : String) (pk : List Nat)
    (app vid : String) :
    tyAt (KeyRingService.appendLedgerKeyRing st aid pk app).1 vid
      = tyAt st vid := by
  unfold KeyRingService.appendLedgerKeyRing
  split
  · rfl
  next vault hv =>
  split
  · rfl
  next hty =>
  split
  · rfl
  next htag =>
  have hledger := not_not.mp hty
  have happ : app ≠ "keyRingType" := by
    intro he
    subst he
    rw [hledger] at htag
    exact htag rfl
  exact tyAt_update st aid _
    (by rw [lookup_cons_ne _ _ _ _ (Ne.symm happ)]; rfl) vid

theorem tyAt_changeName (st : KRState) (v nm vid : String) :
    tyAt (KeyRingService.changeKeyRingName st v nm).1 vid = tyAt st vid := by
  unfold KeyRingService.changeKeyRingName
  repeat' split
  any_goals rfl
  exact tyAt_update st v _ (by rw [lookup_cons_ne _ _ _ _ (by decide)]; rfl) vid

theorem tyAt_sign (cfg : Config) (st : KRState) (ch v : String)
    (data : List Nat) (dm : String) (vid : String) :
    tyAt (KeyRingService.sign cfg st ch v data dm).1 vid = tyAt st vid := by
  simp only [KeyRingService.sign]
  repeat' split
  any_goals rfl
  exact tyAt_update st _ _ (by rw [lookup_cons_ne _ _ _ _ (by decide)]; rfl) vid

theorem tyAt_delete (st : KRState) (dvid pw vid : String) (hne : vid ≠ dvid) :
    tyAt (KeyRingService.deleteKeyRing st dvid pw).state vid = tyAt st vid := by
  simp only [KeyRingService.deleteKeyRing]
  repeat' split
  any_goals rfl
  all_goals unfold tyAt
  all_goals dsimp only
  all_goals rw [findVault_filter_ne _ _ _ hne]

/-- C9: the keyRingType field of every vault is unchanged by each mutating
operation of the orchestrator - finalizeMnemonicKeyCoinType,
appendLedgerKeyRing, changeKeyRingName, sign, and deleteKeyRing of another
vault - whether the operation succeeds or fails. -/
theorem keyRingType_immutable (cfg : Config) (st : KRState) (v ch : String)
    (c : Int) (aid : String) (pk : List Nat) (app nm : String)
    (data : List Nat) (dm : String) (dvid pw vid : String) :
    tyAt (KeyRingService.finalizeMnemonicKeyCoinType cfg st v ch c).1 vid
      = tyAt st vid ∧
    tyAt (KeyRingService.appendLedgerKeyRing st aid pk app).1 vid
      = tyAt st vid ∧
    tyAt (KeyRingService.changeKeyRingName st v nm).1 vid = tyAt st vid ∧
    tyAt (KeyRingService.sign cfg st ch v data dm).1 vid = tyAt st vid ∧
    (vid ≠ dvid →
      tyAt (KeyRingService.deleteKeyRing st dvid pw).state vid = tyAt st vid) :=
  ⟨tyAt_finalize cfg st v ch c vid, tyAt_append st aid pk app vid,
   tyAt_changeName st v nm vid, tyAt_sign cfg st ch v data dm vid,
   fun hne => tyAt_delete st dvid pw vid hne⟩

/-- Witness for the C9 theorem's hypothesis-bearing clause: deleting vault `v2`
leaves the keyRingType of vault `v1` unchanged. -/
theorem keyRingType_immutable_witness :
    tyAt (KeyRingService.deleteKeyRing st2Fix "v2" "pw").state "v1"
      = tyAt st2Fix "v1" :=
  (keyRingType_immutable cfgFix st2Fix "v1" "cosmoshub" 118 "v2" [1]
    "Ethereum" "nm" [9] "sha256" "v2" "pw" "v1").2.2.2.2 (by decide)

/-- C3: for every raw signature triple - a null recovery indicator fails with
InvalidSignature; otherwise (for r and s that fit in 256 bits) the result is
exactly the five hex-string fields [r-low, r-high, s-low, s-high, v-as-hex] in
that order, where the low/high limbs split r and s - read as 256-bit big-endian
unsigned integers - at bit 128. -/
theorem formatEthSignature_fields (sig : RawSig) :
    (sig.v = none →
      KeyRingStarknetService.formatEthSignature sig
        = .error .invalidSignature) ∧
    (∀ v, sig.v = some v →
      bytesToNat sig.r < 2 ^ 256 → bytesToNat sig.s < 2 ^ 256 →
      KeyRingStarknetService.formatEthSignature sig =
        .ok ["0x" ++ natToHex (bytesToNat sig.r % 2 ^ 128),
             "0x" ++ natToHex (bytesToNat sig.r / 2 ^ 128),
             "0x" ++ natToHex (bytesToNat sig.s % 2 ^ 128),
             "0x" ++ natToHex (bytesToNat sig.s / 2 ^ 128),
             "0x" ++ natToHex v]) := by
  constructor
  · intro hv
    unfold KeyRingStarknetService.formatEthSignature
    rw [hv]
  · intro v hv hr hs
    unfold KeyRingStarknetService.formatEthSignature
    rw [hv]
    unfold KeyRingStarknetService.toUint256HexString
    rw [if_pos hr, if_pos hs]
    rfl

/-- Witness for the C3 theorem at the spec's round-trip example: r = 0x..01,
s = 0x..02 (32-byte big-endian), recovery indicator 1 yields
["0x1", "0x0", "0x2", "0x0", "0x1"]. -/
theorem formatEthSignature_fields_witness :
    KeyRingStarknetService.formatEthSignature
        ⟨List.replicate 31 0 ++ [1], List.replicate 31 0 ++ [2], some 1⟩
      = .ok ["0x1", "0x0", "0x2", "0x0", "0x1"] :=
  ((formatEthSignature_fields
      ⟨List.replicate 31 0 ++ [1], List.replicate 31 0 ++ [2], some 1⟩).2
    1 rfl (by decide) (by decide)).trans (by decide)

theorem v3_not_v2 (v : String) (h : ETransactionVersion3.contains v = true) :
    ETransactionVersion2.contains v = false := by
  have hv : v = "0x3" ∨ v = "0x100000000000000000000000000000003" := by
    simpa [ETransactionVersion3] using h
  rcases hv with hv | hv <;> subst hv <;> decide

/-- C4: each transaction-signing kind (invoke, deploy-account, declare)
branches on the declared version - a version in the v2 enumeration selects the
v2 hash rule-set, a version in the v3 enumeration selects the v3 rule-set with
both data-availability-mode flags mapped through intDAM (L1 to 0, L2 to 1)
before hashing, and any other version fails with UnsupportedVersion; moreover
v2-style and v3-style digests of the same kind always differ, in particular for
versions "0x1" versus "0x3" with otherwise identical fields. -/
theorem starknet_tx_version_branching :
    (∀ (det : InvocationsSignerDetails) (cc : List String),
      ETransactionVersion2.contains det.version = true →
      KeyRingStarknetService.invokeMsgHash det cc =
        .ok (.invokeV2 det.walletAddress cc det.version det.chainId det.nonce
          det.maxFee)) ∧
    (∀ (det : InvocationsSignerDetails) (cc : List String) (n f : Nat),
      ETransactionVersion3.contains det.version = true →
      intDAM det.nonceDataAvailabilityMode = .ok n →
      intDAM det.feeDataAvailabilityMode = .ok f →
      KeyRingStarknetService.invokeMsgHash det cc =
        .ok (.invokeV3 det.walletAddress cc det.version det.chainId det.nonce
          det.resourceBounds det.tip det.paymasterData
          det.accountDeploymentData n f)) ∧
    (∀ (det : InvocationsSignerDetails) (cc : List String),
      ETransactionVersion2.contains det.version = false →
      ETransactionVersion3.contains det.version = false →
      KeyRingStarknetService.invokeMsgHash det cc
        = .error .unsupportedVersion) ∧
    (∀ (det : DeployAccountSignerDetails),
      ETransactionVersion2.contains det.version = true →
      KeyRingStarknetService.deployAccountMsgHash det =
        .ok (.deployAccountV2 det.contractAddress det.classHash det.addressSalt
          (callDataCompile det.constructorCalldata) det.version det.chainId
          det.nonce det.maxFee)) ∧
    (∀ (det : DeployAccountSignerDetails) (n f : Nat),
      ETransactionVersion3.contains det.version = true →
      intDAM det.nonceDataAvailabilityMode = .ok n →
      intDAM det.feeDataAvailabilityMode = .ok f →
      KeyRingStarknetService.deployAccountMsgHash det =
        .ok (.deployAccountV3 det.contractAddress det.classHash det.addressSalt
          (callDataCompile det.constructorCalldata) det.version det.chainId
          det.nonce det.resourceBounds det.tip det.paymasterData n f)) ∧
    (∀ (det : DeployAccountSignerDetails),
      ETransactionVersion2.contains det.version = false →
      ETransactionVersion3.contains det.version = false →
      KeyRingStarknetService.deployAccountMsgHash det
        = .error .unsupportedVersion) ∧
    (∀ (det : DeclareSignerDetails),
      ETransactionVersion2.contains det.version = true →
      KeyRingStarknetService.declareMsgHash det =
        .ok (.declareV2 det.classHash det.compiledClassHash det.senderAddress
          det.version det.chainId det.nonce det.maxFee)) ∧
    (∀ (det : DeclareSignerDetails) (n f : Nat),
      ETransactionVersion3.contains det.version = true →
      intDAM det.nonceDataAvailabilityMode = .ok n →
      intDAM det.feeDataAvailabilityMode = .ok f →
      KeyRingStarknetService.declareMsgHash det =
        .ok (.declareV3 det.classHash det.compiledClassHash det.senderAddress
          det.version det.chainId det.nonce det.resourceBounds det.tip
          det.paymasterData det.accountDeploymentData n f)) ∧
    (∀ (det : DeclareSignerDetails),
      ETransactionVersion2.contains det.version = false →
      ETransactionVersion3.contains det.version = false →
      KeyRingStarknetService.declareMsgHash det
        = .error .unsupportedVersion) ∧
    intDAM "L1" = .ok 0 ∧ intDAM "L2" = .ok 1 ∧
    (∀ (det det' : InvocationsSignerDetails) (cc cc' : List String)
      (h h' : MsgHash),
      det.version = "0x1" → det'.version = "0x3" →
      KeyRingStarknetService.invokeMsgHash det cc = .ok h →
      KeyRingStarknetService.invokeMsgHash det' cc' = .ok h' →
      h ≠ h') ∧
    (∀ (det det' : DeployAccountSignerDetails) (h h' : MsgHash),
      det.version = "0x1" → det'.version = "0x3" →
      KeyRingStarknetService.deployAccountMsgHash det = .ok h →
      KeyRingStarknetService.deployAccountMsgHash det' = .ok h' →
      h ≠ h') ∧
    (∀ (det det' : DeclareSignerDetails) (h h' : MsgHash),
      det.version = "0x1" → det'.version = "0x3" →
      KeyRingStarknetService.declareMsgHash det = .ok h →
      KeyRingStarknetService.declareMsgHash det' = .ok h' →
      h ≠ h') := by
  have bv2 : ∀ v : String, v = "0x1" → ETransactionVersion2.contains v = true := by
    intro v hv; subst hv; decide
  have bv3 : ∀ v : String, v = "0x3" → ETransactionVersion3.contains v = true := by
    intro v hv; subst hv; decide
  have inv2 : ∀ (det : InvocationsSignerDetails) (cc : List String),
      ETransactionVersion2.contains det.version = true →
      KeyRingStarknetService.invokeMsgHash det cc =
        .ok (.invokeV2 det.walletAddress cc det.version det.chainId det.nonce
          det.maxFee) := by
    intro det cc h2
    unfold KeyRingStarknetService.invokeMsgHash
    rw [h2]
    simp
  have inv3 : ∀ (det : InvocationsSignerDetails) (cc : List String) (n f : Nat),
      ETransactionVersion3.contains det.version = true →
      intDAM det.nonceDataAvailabilityMode = .ok n →
      intDAM det.feeDataAvailabilityMode = .ok f →
      KeyRingStarknetService.invokeMsgHash det cc =
        .ok (.invokeV3 det.walletAddress cc det.version det.chainId det.nonce
          det.resourceBounds det.tip det.paymasterData
          det.accountDeploymentData n f) := by
    intro det cc n f h3 hn hf
    unfold KeyRingStarknetService.invokeMsgHash
    rw [v3_not_v2 _ h3, h3]
    simp [hn, hf, Bind.bind, Except.bind]
  have invE : ∀ (det : InvocationsSignerDetails) (cc : List String),
      ETransactionVersion2.contains det.version = false →
      ETransactionVersion3.contains det.version = false →
      KeyRingStarknetService.invokeMsgHash det cc
        = .error .unsupportedVersion := by
    intro det cc h2 h3
    unfold KeyRingStarknetService.invokeMsgHash
    rw [h2, h3]
    simp
  have dep2 : ∀ (det : DeployAccountSignerDetails),
      ETransactionVersion2.contains det.version = true →
      KeyRingStarknetService.deployAccountMsgHash det =
        .ok (.deployAccountV2 det.contractAddress det.classHash det.addressSalt
          (callDataCompile det.constructorCalldata) det.version det.chainId
          det.nonce det.maxFee) := by
    intro det h2
    unfold KeyRingStarknetService.deployAccountMsgHash
    rw [h2]
    simp
  have dep3 : ∀ (det : DeployAccountSignerDetails) (n f : Nat),
      ETransactionVersion3.contains det.version = true →
      intDAM det.nonceDataAvailabilityMode = .ok n →
      intDAM det.feeDataAvailabilityMode = .ok f →
      KeyRingStarknetService.deployAccountMsgHash det =
        .ok (.deployAccountV3 det.contractAddress det.classHash det.addressSalt
          (callDataCompile det.constructorCalldata) det.version det.chainId
          det.nonce det.resourceBounds det.tip det.paymasterData n f) := by
    intro det n f h3 hn hf
    unfold KeyRingStarknetService.deployAccountMsgHash
    rw [v3_not_v2 _ h3, h3]
    simp [hn, hf, Bind.bind, Except.bind]
  have depE : ∀ (det : DeployAccountSignerDetails),
      ETransactionVersion2.contains det.version = false →
      ETransactionVersion3.contains det.version = false →
      KeyRingStarknetService.deployAccountMsgHash det
        = .error .unsupportedVersion := by
    intro det h2 h3
    unfold KeyRingStarknetService.deployAccountMsgHash
    rw [h2, h3]
    simp
  have dec2 : ∀ (det : DeclareSignerDetails),
      ETransactionVersion2.contains det.version = true →
      KeyRingStarknetService.declareMsgHash det =
        .ok (.declareV2 det.classHash det.compiledClassHash det.senderAddress
          det.version det.chainId det.nonce det.maxFee) := by
    intro det h2
    unfold KeyRingStarknetService.declareMsgHash
    rw [h2]
    simp
  have dec3 : ∀ (det : DeclareSignerDetails) (n f : Nat),
      ETransactionVersion3.contains det.version = true →
      intDAM det.nonceDataAvailabilityMode = .ok n →
      intDAM det.feeDataAvailabilityMode = .ok f →
      KeyRingStarknetService.declareMsgHash det =
        .ok (.declareV3 det.classHash det.compiledClassHash det.senderAddress
          det.version det.chainId det.nonce det.resourceBounds det.tip
          det.paymasterData det.accountDeploymentData n f) := by
    intro det n f h3 hn hf
    unfold KeyRingStarknetService.declareMsgHash
    rw [v3_not_v2 _ h3, h3]
    simp [hn, hf, Bind.bind, Except.bind]
  have decE : ∀ (det : DeclareSignerDetails),
      ETransactionVersion2.contains det.version = false →
      ETransactionVersion3.contains det.version = false →
      KeyRingStarknetService.declareMsgHash det
        = .error .unsupportedVersion := by
    intro det h2 h3
    unfold KeyRingStarknetService.declareMsgHash
    rw [h2, h3]
    simp
  have diffInv : ∀ (det det' : InvocationsSignerDetails) (cc cc' : List String)
      (h h' : MsgHash), det.version = "0x1" → det'.version = "0x3" →
      KeyRingStarknetService.invokeMsgHash det cc = .ok h →
      KeyRingStarknetService.invokeMsgHash det' cc' = .ok h' → h ≠ h' := by
    intro det det' cc cc' h h' hv1 hv3 hh hh'
    rw [inv2 det cc (bv2 _ hv1)] at hh
    cases hn : intDAM det'.nonceDataAvailabilityMode with
    | error e =>
      unfold KeyRingStarknetService.invokeMsgHash at hh'
      rw [v3_not_v2 _ (bv3 _ hv3), bv3 _ hv3] at hh'
      simp [hn, Bind.bind, Except.bind] at hh'
    | ok n =>
      cases hf : intDAM det'.feeDataAvailabilityMode with
      | error e =>
        unfold KeyRingStarknetService.invokeMsgHash at hh'
        rw [v3_not_v2 _ (bv3 _ hv3), bv3 _ hv3] at hh'
        simp [hn, hf, Bind.bind, Except.bind] at hh'
      | ok f =>
        rw [inv3 det' cc' n f (bv3 _ hv3) hn hf] at hh'
        injection hh with hh
        injection hh' with hh'
        rw [← hh, ← hh']
        simp
  have diffDep : ∀ (det det' : DeployAccountSignerDetails) (h h' : MsgHash),
      det.version = "0x1" → det'.version = "0x3" →
      KeyRingStarknetService.deployAccountMsgHash det = .ok h →
      KeyRingStarknetService.deployAccountMsgHash det' = .ok h' → h ≠ h' := by
    intro det det' h h' hv1 hv3 hh hh'
    rw [dep2 det (bv2 _ hv1)] at hh
    cases hn : intDAM det'.nonceDataAvailabilityMode with
    | error e =>
      unfold KeyRingStarknetService.deployAccountMsgHash at hh'
      rw [v3_not_v2 _ (bv3 _ hv3), bv3 _ hv3] at hh'
      simp [hn, Bind.bind, Except.bind] at hh'
    | ok n =>
      cases hf : intDAM det'.feeDataAvailabilityMode with
      | error e =>
        unfold KeyRingStarknetService.deployAccountMsgHash at hh'
        rw [v3_not_v2 _ (bv3 _ hv3), bv3 _ hv3] at hh'
        simp [hn, hf, Bind.bind, Except.bind] at hh'
      | ok f =>
        rw [dep3 det' n f (bv3 _ hv3) hn hf] at hh'
        injection hh with hh
        injection hh' with hh'
        rw [← hh, ← hh']
        simp
  have diffDec : ∀ (det det' : DeclareSignerDetails) (h h' : MsgHash),
      det.version = "0x1" → det'.version = "0x3" →
      KeyRingStarknetService.declareMsgHash det = .ok h →
      KeyRingStarknetService.declareMsgHash det' = .ok h' → h ≠ h' := by
    intro det det' h h' hv1 hv3 hh hh'
    rw [dec2 det (bv2 _ hv1)] at hh
    cases hn : intDAM det'.nonceDataAvailabilityMode with
    | error e =>
      unfold KeyRingStarknetService.declareMsgHash at hh'
      rw [v3_not_v2 _ (bv3 _ hv3), bv3 _ hv3] at hh'
      simp [hn, Bind.bind, Except.bind] at hh'
    | ok n =>
      cases hf : intDAM det'.feeDataAvailabilityMode with
      | error e =>
        unfold KeyRingStarknetService.declareMsgHash at hh'
        rw [v3_not_v2 _ (bv3 _ hv3), bv3 _ hv3] at hh'
        simp [hn, hf, Bind.bind, Except.bind] at hh'
      | ok f =>
        rw [dec3 det' n f (bv3 _ hv3) hn hf] at hh'
        injection hh with hh
        injection hh' with hh'
        rw [← hh, ← hh']
        simp
  exact ⟨inv2, inv3, invE, dep2, dep3, depE, dec2, dec3, decE,
    by decide, by decide, diffInv, diffDep, diffDec⟩

/-- Fixture: invoke signer details with version "0x1" and L1/L2 DA modes. -/
def invDetV1 : InvocationsSignerDetails :=
  ⟨"0x1", "0xabc", "1", "SN_MAIN", "0x7", "0x64", "rb", "0x0", [], [],
    "L1", "L2"⟩

/-- Fixture: the same invoke details with version "0x3". -/
def invDetV3 : InvocationsSignerDetails := { invDetV1 with version := "0x3" }

/-- Fixture: the same invoke details with the unsupported version "0x5". -/
def invDetV5 : InvocationsSignerDetails := { invDetV1 with version := "0x5" }

/-- Witness for the C4 theorem: versions "0x1", "0x3" and "0x5" of the same
invoke transaction select the v2 rule-set, the v3 rule-set with the DA modes
mapped to 0 and 1, and the UnsupportedVersion failure respectively, and the
"0x1" and "0x3" digests differ. -/
theorem starknet_tx_version_branching_witness :
    KeyRingStarknetService.invokeMsgHash invDetV1 ["cd"] =
      .ok (.invokeV2 "0xabc" ["cd"] "0x1" "SN_MAIN" "0x7" "0x64") ∧
    KeyRingStarknetService.invokeMsgHash invDetV3 ["cd"] =
      .ok (.invokeV3 "0xabc" ["cd"] "0x3" "SN_MAIN" "0x7" "rb" "0x0" [] []
        0 1) ∧
    KeyRingStarknetService.invokeMsgHash invDetV5 ["cd"]
      = .error .unsupportedVersion ∧
    (MsgHash.invokeV2 "0xabc" ["cd"] "0x1" "SN_MAIN" "0x7" "0x64" ≠
      MsgHash.invokeV3 "0xabc" ["cd"] "0x3" "SN_MAIN" "0x7" "rb" "0x0" [] []
        0 1) :=
  ⟨starknet_tx_version_branching.1 invDetV1 ["cd"] (by decide),
   starknet_tx_version_branching.2.1 invDetV3 ["cd"] 0 1 (by decide) rfl rfl,
   starknet_tx_version_branching.2.2.1 invDetV5 ["cd"] (by decide) (by decide),
   starknet_tx_version_branching.2.2.2.2.2.2.2.2.2.2.2.1 invDetV1 invDetV3
     ["cd"] ["cd"] _ _ rfl rfl rfl rfl⟩

/-- C5: on every signing entry point of the Starknet adapter - typed-message
signing and the three transaction kinds - a claimed signer that differs from
the hexAddress derived from the target vault fails with InvalidSigner, with no
digest computed, no signing request sent to the key ring, and the key-ring
state unchanged (no signature produced). -/
theorem starknet_invalid_signer_guard (cfg : Config)
    (hashEval : MsgHash → List Nat) (st : KRState)
    (vaultId chainId signer : String)
    (key : KeyRingStarknetService.StarknetKey)
    (td : TypedData) (txs : List Call) (detI : InvocationsSignerDetails)
    (detD : DeployAccountSignerDetails) (detC : DeclareSignerDetails)
    (hkey : KeyRingStarknetService.getStarknetKey cfg st vaultId chainId
      = .ok key)
    (hne : key.hexAddress ≠ signer) :
    KeyRingStarknetService.signStarknetMessage cfg hashEval st vaultId chainId
        signer td = ⟨.error .invalidSigner, st, []⟩ ∧
    KeyRingStarknetService.signStarknetTransaction cfg hashEval st vaultId
        chainId signer txs detI = ⟨.error .invalidSigner, st, []⟩ ∧
    KeyRingStarknetService.signStarknetDeployAccountTransaction cfg hashEval
        st vaultId chainId signer detD = ⟨.error .invalidSigner, st, []⟩ ∧
    KeyRingStarknetService.signStarknetDeclareTransaction cfg hashEval st
        vaultId chainId signer detC = ⟨.error .invalidSigner, st, []⟩ := by
  refine ⟨?_, ?_, ?_, ?_⟩
  · unfold KeyRingStarknetService.signStarknetMessage
    rw [hkey]
    simp only [if_pos hne]
  · unfold KeyRingStarknetService.signStarknetTransaction
    rw [hkey]
    simp only [if_pos hne]
  · unfold KeyRingStarknetService.signStarknetDeployAccountTransaction
    rw [hkey]
    simp only [if_pos hne]
  · unfold KeyRingStarknetService.signStarknetDeclareTransaction
    rw [hkey]
    simp only [if_pos hne]

/-- Fixture: a chain carrying a starknet section. -/
def snChain : ChainInfo := ⟨"snmain", ⟨9004⟩, none, true⟩

/-- Fixture: collaborators for the Starknet adapter; the stub address
derivation returns the public key bytes. -/
def cfgSn : Config := ⟨[snChain], [mnemonicKeyRingFix], fun pk _ _ => pk⟩

/-- Witness for the C5 theorem: the vault's derived identity is `0x0405`, the
claimed signer `0xdead` differs, and all four entry points refuse. -/
theorem starknet_invalid_signer_guard_witness :
    KeyRingStarknetService.signStarknetMessage cfgSn (fun _ => [1]) stFix "v1"
        "snmain" "0xdead" ⟨"msg"⟩ = ⟨.error .invalidSigner, stFix, []⟩ ∧
    KeyRingStarknetService.signStarknetTransaction cfgSn (fun _ => [1]) stFix
        "v1" "snmain" "0xdead" [] invDetV1
      = ⟨.error .invalidSigner, stFix, []⟩ ∧
    KeyRingStarknetService.signStarknetDeployAccountTransaction cfgSn
        (fun _ => [1]) stFix "v1" "snmain" "0xdead"
        ⟨"0x1", "0xc", "0xh", "0xs", [], "SN_MAIN", "0x7", "0x64", "rb",
          "0x0", [], "L1", "L2"⟩
      = ⟨.error .invalidSigner, stFix, []⟩ ∧
    KeyRingStarknetService.signStarknetDeclareTransaction cfgSn (fun _ => [1])
        stFix "v1" "snmain" "0xdead"
        ⟨"0x1", "0xh", "0xch", "0xa", "SN_MAIN", "0x7", "0x64", "rb", "0x0",
          [], [], "L1", "L2"⟩
      = ⟨.error .invalidSigner, stFix, []⟩ :=
  starknet_invalid_signer_guard cfgSn (fun _ => [1]) stFix "v1" "snmain"
    "0xdead" ⟨"0x0405", [4, 5], [4, 5]⟩ ⟨"msg"⟩ [] invDetV1
    ⟨"0x1", "0xc", "0xh", "0xs", [], "SN_MAIN", "0x7", "0x64", "rb", "0x0",
      [], "L1", "L2"⟩
    ⟨"0x1", "0xh", "0xch", "0xa", "SN_MAIN", "0x7", "0x64", "rb", "0x0",
      [], [], "L1", "L2"⟩
    rfl (by decide)
